import Mathlib

/-!
Shallow embedding of `src/main.py` (an HH vacancies scraper) and proofs about it.

The script has three components with real logic:
* `filter_by_salary` — a pure filter over listing records (salary threshold);
* `retry_request` — a retry/backoff wrapper around an HTTP operation;
* `fetch_all` — the pagination loop driving page fetches and the filter.

Each is translated below from the Python source.  Machine-level effects (actual
HTTP, logging text, wall-clock sleeping) are modelled by explicit data:
the wrapped operation becomes a function from the call index to its outcome,
and the sleeps performed are collected into a list of durations.
-/

namespace HHParse

/-- A salary sub-mapping of a listing record: optional `from` and `to` numeric
bounds, as in the JSON schema (`salary.get('from')`, `salary.get('to')`).
`none` models the key being absent or `null`. -/
structure Salary where
  salary_from : Option Int
  salary_to : Option Int
deriving DecidableEq, Repr

/-- A listing record ("vacancy"): an opaque mapping with an optional `salary`
field.  `payload` stands for all the other fields, which the core never
interprets; it lets distinct records be distinguished.
`salary = none` models `vacancy.get('salary')` being absent, `null`, or an
empty mapping (an empty dict is falsy under `if salary:` exactly like `None`,
and having no keys it also has no bounds, so the filtering outcome coincides). -/
structure Vacancy where
  salary : Option Salary
  payload : Nat
deriving DecidableEq, Repr

/-- Python truthiness of `b and b >= m` for an optional numeric bound `b`
(src/main.py lines 118-119): `None` is falsy, and so is the number `0`,
so the comparison is only reached for a present, nonzero bound. -/
def boundPasses (b : Option Int) (m : Int) : Bool :=
  match b with
  | none => false
  | some x => decide (x ≠ 0) && decide (m ≤ x)

/-- The body of the loop in `filter_by_salary` deciding whether one vacancy is
kept (src/main.py lines 112-120): `if salary:` then
`(salary_from and salary_from >= min_salary) or (salary_to and salary_to >= min_salary)`. -/
def keepVacancy (min_salary : Int) (vacancy : Vacancy) : Bool :=
  match vacancy.salary with
  | none => false
  | some salary => boundPasses salary.salary_from min_salary
      || boundPasses salary.salary_to min_salary

/-- `filter_by_salary` (src/main.py lines 108-122): iterate over the input list
in order, appending each vacancy that passes the salary check. -/
def filter_by_salary : List Vacancy → Int → List Vacancy
  | [], _ => []
  | vacancy :: rest, min_salary =>
    if keepVacancy min_salary vacancy then
      vacancy :: filter_by_salary rest min_salary
    else
      filter_by_salary rest min_salary

/-- The loop of `filter_by_salary` is `List.filter` of the per-record check. -/
theorem filter_by_salary_eq_filter (vs : List Vacancy) (m : Int) :
    filter_by_salary vs m = vs.filter (keepVacancy m) := by
  induction vs with
  | nil => rfl
  | cons v rest ih =>
    by_cases h : keepVacancy m v
    · simp [filter_by_salary, h, ih]
    · simp [filter_by_salary, h, ih]

/-- A spec bound check, written from the spec's words for claim C1: the bound
is PRESENT (i.e. non-`None` — a bound of exactly `0` counts as present) and
`≥ min_salary`. -/
def specBoundPresentGE (b : Option Int) (m : Int) : Bool :=
  match b with
  | none => false
  | some x => decide (m ≤ x)

/-- The spec's keep-predicate for claim C1, written from the spec's words:
keep iff the record has a `salary` sub-mapping AND (`salary.from` is present
and `≥ min_salary` OR `salary.to` is present and `≥ min_salary`). -/
def specKeepC1 (min_salary : Int) (vacancy : Vacancy) : Bool :=
  match vacancy.salary with
  | none => false
  | some s => specBoundPresentGE s.salary_from min_salary
      || specBoundPresentGE s.salary_to min_salary

/-- What the code's per-record check amounts to: a salary sub-mapping is
present and some bound is present, nonzero, and at least the threshold. -/
theorem keepVacancy_iff (m : Int) (v : Vacancy) :
    keepVacancy m v = true ↔
      ∃ s, v.salary = some s ∧
        ((∃ x, s.salary_from = some x ∧ x ≠ 0 ∧ m ≤ x) ∨
         (∃ x, s.salary_to = some x ∧ x ≠ 0 ∧ m ≤ x)) := by
  rcases v with ⟨sal, p⟩
  rcases sal with _ | ⟨f, t⟩
  · simp [keepVacancy]
  · rcases f with _ | x <;> rcases t with _ | y <;>
      simp [keepVacancy, boundPasses, and_assoc]

/-- C1 (counterexample): the claim reads a bound of `0` as "present", but the
code's truthiness test drops it.  For the record whose salary is
`{from: null, to: 0}` and minimum salary `0`, the spec-side predicate keeps
the record while `filter_by_salary` drops it. -/
theorem C1_zero_to_bound_counterexample :
    specKeepC1 0 ⟨some ⟨none, some 0⟩, 0⟩ = true ∧
    filter_by_salary [⟨some ⟨none, some 0⟩, 0⟩] 0 = [] := by decide

/-- C1 (amended): `filter_by_salary` keeps a record iff it occurs in the input,
has a `salary` sub-mapping, and either bound is present, NONZERO, and `≥ m`;
a record with no salary field, or whose present nonzero bounds are all below
`m`, is dropped (a bound of exactly `0` is treated like an absent one). -/
theorem C1_filter_mem_iff (vs : List Vacancy) (m : Int) (v : Vacancy) :
    v ∈ filter_by_salary vs m ↔
      v ∈ vs ∧ ∃ s, v.salary = some s ∧
        ((∃ x, s.salary_from = some x ∧ x ≠ 0 ∧ m ≤ x) ∨
         (∃ x, s.salary_to = some x ∧ x ≠ 0 ∧ m ≤ x)) := by
  rw [filter_by_salary_eq_filter, List.mem_filter, keepVacancy_iff]

/-- C2 (counterexample): a `from` bound of exactly `0` is NOT treated as
present: with minimum salary `0 ≤ 0`, the record whose salary is
`{from: 0, to: null}` is dropped by `filter_by_salary`, not kept. -/
theorem C2_zero_from_bound_counterexample :
    (0 : Int) ≤ 0 ∧
    filter_by_salary [⟨some ⟨some 0, none⟩, 1⟩] 0 = [] := by decide

/-- C2 (amended): in `filter_by_salary` a salary bound whose value is exactly
`0` is treated as absent (Python falsiness), so a record each of whose salary
bounds is missing or exactly `0` is dropped for every minimum salary. -/
theorem C2_zero_bound_treated_absent (m : Int) (vs : List Vacancy) (v : Vacancy)
    (s : Salary) (hs : v.salary = some s)
    (hf : s.salary_from = none ∨ s.salary_from = some 0)
    (ht : s.salary_to = none ∨ s.salary_to = some 0) :
    v ∉ filter_by_salary vs m := by
  intro hmem
  rw [filter_by_salary_eq_filter, List.mem_filter, keepVacancy_iff] at hmem
  obtain ⟨-, s', hs', h⟩ := hmem
  rw [hs, Option.some.injEq] at hs'
  subst hs'
  rcases h with ⟨x, hx, hx0, -⟩ | ⟨x, hx, hx0, -⟩
  · rcases hf with hf | hf <;> rw [hf] at hx
    · exact Option.noConfusion hx
    · exact hx0 (Option.some.injEq _ _ ▸ hx).symm
  · rcases ht with ht | ht <;> rw [ht] at hx
    · exact Option.noConfusion hx
    · exact hx0 (Option.some.injEq _ _ ▸ hx).symm

/-- Witness for C2 (amended) at the record `{salary: {from: 0, to: null}}`
and minimum salary `5`. -/
theorem C2_zero_bound_treated_absent_witness :
    Vacancy.mk (some ⟨some 0, none⟩) 1 ∉
      filter_by_salary [⟨some ⟨some 0, none⟩, 1⟩] 5 :=
  C2_zero_bound_treated_absent 5 [⟨some ⟨some 0, none⟩, 1⟩]
    ⟨some ⟨some 0, none⟩, 1⟩ ⟨some 0, none⟩ rfl (Or.inr rfl) (Or.inl rfl)

/-- C8: the output of `filter_by_salary` is a sublist of the input — kept
records appear in their input order, the output is never longer than the
input, and every output record is an input record. -/
theorem C8_filter_sublist (vs : List Vacancy) (m : Int) :
    (filter_by_salary vs m).Sublist vs ∧
    (filter_by_salary vs m).length ≤ vs.length ∧
    ∀ v ∈ filter_by_salary vs m, v ∈ vs := by
  have h : (filter_by_salary vs m).Sublist vs := by
    rw [filter_by_salary_eq_filter]
    exact List.filter_sublist vs
  exact ⟨h, h.length_le, fun v hv => h.subset hv⟩

/-- Witness for C8 at a one-record input that the filter keeps. -/
theorem C8_filter_sublist_witness :
    Vacancy.mk (some ⟨some 1, none⟩) 0 ∈
      filter_by_salary [⟨some ⟨some 1, none⟩, 0⟩] 0 ∧
    Vacancy.mk (some ⟨some 1, none⟩) 0 ∈ [Vacancy.mk (some ⟨some 1, none⟩) 0] :=
  ⟨by decide,
   (C8_filter_sublist [⟨some ⟨some 1, none⟩, 0⟩] 0).2.2 _ (by decide)⟩

/-! ## The retry wrapper (`retry_request`, src/main.py lines 18-62)

The wrapped function is modelled as a map from the call index (0-based: the
value of `retries` when the call is made) to that call's outcome: either it
raises one of the caught network exceptions, or it returns a Python value.
Values are classified exactly as the wrapper does with `hasattr(result,
'status_code')`: `None`, a response object carrying a status code, or any
other object.  Delays are exact rationals (the script only ever multiplies
them), and the sleeps actually performed are recorded in order. -/

/-- A Python value as the wrapper sees it: `None`, a response object with a
`status_code` attribute, or any other object (tagged to keep values apart). -/
inductive PyVal where
  | pynone : PyVal
  | resp (status_code : Nat) : PyVal
  | other (tag : Nat) : PyVal
deriving DecidableEq, Repr

/-- Outcome of one invocation of the wrapped function: it raises a caught
network exception (`requests.exceptions.*`), or returns a value. -/
inductive CallRes where
  | raise : CallRes
  | ret (v : PyVal) : CallRes
deriving DecidableEq, Repr

/-- `hasattr(result, 'status_code')` (src/main.py line 35). -/
def hasStatusCode : PyVal → Bool
  | PyVal.resp _ => true
  | _ => false

/-- What one run of the wrapper produced: the returned value (`PyVal.pynone`
is Python `None`, which is also the exhaustion sentinel), how many times the
wrapped function was invoked, and the sleeps performed, in order. -/
structure RetryOutcome where
  value : PyVal
  calls : Nat
  sleeps : List ℚ
deriving DecidableEq, Repr

/-- The `while retries <= max_retries` loop of the wrapper (src/main.py lines
30-58).  `fuel` stands for the loop guard: on entry `fuel = max_retries + 1 -
retries`, and the guard `retries ≤ max_retries` holds iff `fuel > 0`; the
recursive call keeps this in step (`retries + 1`, `fuel - 1`), so the `fuel =
0` branch is the guard failing (the unreachable `return None` of line 60).
Each iteration invokes the wrapped function once; `calls` and `sleeps`
accumulate the observable history. -/
def retryGo (func : Nat → CallRes) (retryable_status_codes : List Nat)
    (max_retries : Nat) (backoff_factor : ℚ) :
    Nat → Nat → ℚ → Nat → List ℚ → RetryOutcome
  | 0, _, _, calls, sleeps => ⟨PyVal.pynone, calls, sleeps⟩
  | fuel + 1, retries, delay, calls, sleeps =>
    match func retries with
    | CallRes.ret result =>
      match result with
      | PyVal.resp code =>
        -- `hasattr(result, 'status_code')` holds
        if code = 200 then ⟨PyVal.resp code, calls + 1, sleeps⟩
        else if code ∈ retryable_status_codes then
          -- retryable status: log a warning, then fall through to the retry
          -- bookkeeping shared with the exception branch
          if retries = max_retries then ⟨PyVal.pynone, calls + 1, sleeps⟩
          else
            retryGo func retryable_status_codes max_retries backoff_factor
              fuel (retries + 1) (delay * backoff_factor) (calls + 1)
              (sleeps ++ [delay])
        else
          -- a non-retryable status: returned as-is (src/main.py line 41)
          ⟨PyVal.resp code, calls + 1, sleeps⟩
      | _ =>
        -- no `status_code` attribute: returned as-is (src/main.py line 43)
        ⟨result, calls + 1, sleeps⟩
    | CallRes.raise =>
      if retries = max_retries then ⟨PyVal.pynone, calls + 1, sleeps⟩
      else
        retryGo func retryable_status_codes max_retries backoff_factor
          fuel (retries + 1) (delay * backoff_factor) (calls + 1)
          (sleeps ++ [delay])

/-- The default retryable status set of the decorator (src/main.py line 22). -/
def defaultRetryable : List Nat := [429, 500, 502, 503, 504]

/-- One run of the decorated wrapper (src/main.py lines 26-60): `retries = 0`,
`delay = initial_delay`, then the loop.  On entry `fuel = max_retries + 1`
matches the invariant described at `retryGo`. -/
def retry_request (func : Nat → CallRes) (max_retries : Nat)
    (initial_delay backoff_factor : ℚ)
    (retryable_status_codes : List Nat) : RetryOutcome :=
  retryGo func retryable_status_codes max_retries backoff_factor
    (max_retries + 1) 0 initial_delay 0 []

/-- For the always-raising operation, `retryGo` returns the `None` sentinel
from every state: each branch of the exception path ends in `PyVal.pynone`. -/
theorem retryGo_raise_value (codes : List Nat) (max_retries : Nat)
    (f : ℚ) : ∀ (fuel retries : Nat) (d : ℚ) (c : Nat) (s : List ℚ),
    (retryGo (fun _ => CallRes.raise) codes max_retries f
      fuel retries d c s).value = PyVal.pynone := by
  intro fuel
  induction fuel with
  | zero => intro retries d c s; rfl
  | succ fuel ih =>
    intro retries d c s
    rw [retryGo]
    by_cases h : retries = max_retries
    · simp [h]
    · simp only [h, if_false]
      exact ih (retries + 1) (d * f) (c + 1) (s ++ [d])

/-- C3: for an operation that raises a network error on every call, the
wrapper with `max_retries = 3` invokes the operation exactly 4 times and
returns the failure sentinel `None` (no exception ever escapes: the model of
the wrapper is a total function into `RetryOutcome`). -/
theorem C3_always_raise_four_calls (codes : List Nat)
    (initial_delay backoff_factor : ℚ) :
    (retry_request (fun _ => CallRes.raise) 3 initial_delay backoff_factor
      codes).calls = 4 ∧
    (retry_request (fun _ => CallRes.raise) 3 initial_delay backoff_factor
      codes).value = PyVal.pynone := by
  constructor
  · rfl
  · exact retryGo_raise_value codes 3 backoff_factor 4 0 initial_delay 0 []

/-- C5: if the first call returns a response whose status is neither 200 nor
in the default retryable set {429, 500, 502, 503, 504}, the wrapper returns
that response unchanged after exactly one invocation, with no sleep. -/
theorem C5_nonretryable_passthrough (func : Nat → CallRes)
    (max_retries : Nat) (initial_delay backoff_factor : ℚ) (code : Nat)
    (h0 : func 0 = CallRes.ret (PyVal.resp code)) (h200 : code ≠ 200)
    (hnr : code ∉ defaultRetryable) :
    retry_request func max_retries initial_delay backoff_factor
      defaultRetryable = ⟨PyVal.resp code, 1, []⟩ := by
  rw [retry_request, retryGo, h0]
  simp only [h200, if_false, hnr, if_false]

/-- Witness for C5: a 404 on the first call is passed through untouched. -/
theorem C5_nonretryable_passthrough_witness :
    retry_request (fun _ => CallRes.ret (PyVal.resp 404)) 3 1 2
      defaultRetryable = ⟨PyVal.resp 404, 1, []⟩ :=
  C5_nonretryable_passthrough (fun _ => CallRes.ret (PyVal.resp 404)) 3 1 2
    404 rfl (by decide) (by decide)

/-- C10: a returned value with no `status_code` attribute is passed through
immediately — one call, no sleep; in particular an operation that returns
`None` yields `None`, the very value the exhaustion path returns, so the two
outcomes are indistinguishable by value. -/
theorem C10_no_status_code_passthrough (func : Nat → CallRes)
    (max_retries : Nat) (initial_delay backoff_factor : ℚ)
    (codes : List Nat) (v : PyVal) (h0 : func 0 = CallRes.ret v)
    (hns : hasStatusCode v = false) :
    retry_request func max_retries initial_delay backoff_factor codes
      = ⟨v, 1, []⟩ ∧
    (retry_request (fun _ => CallRes.ret PyVal.pynone) max_retries
      initial_delay backoff_factor codes).value =
    (retry_request (fun _ => CallRes.raise) max_retries
      initial_delay backoff_factor codes).value := by
  constructor
  · rw [retry_request, retryGo, h0]
    cases v with
    | pynone => rfl
    | resp c => exact absurd hns (by simp [hasStatusCode])
    | other t => rfl
  · rw [retry_request, retry_request, retryGo,
      retryGo_raise_value codes max_retries backoff_factor]

/-- Unfolding a geometric delay sequence by one step. -/
theorem range_map_geom_succ (d f : ℚ) (k : Nat) :
    (List.range (k + 1)).map (fun i => d * f ^ i)
      = d :: (List.range k).map (fun i => d * f * f ^ i) := by
  rw [List.range_succ_eq_map, List.map_cons, List.map_map]
  refine congrArg₂ _ (by rw [pow_zero, mul_one]) ?_
  refine List.map_congr_left fun i _ => ?_
  show d * f ^ (i + 1) = d * f * f ^ i
  rw [pow_succ]
  ring

/-- The sleeps performed by the retry loop extend the accumulator with a
geometric sequence: current delay, times the factor at each later retry. -/
theorem retryGo_sleeps (func : Nat → CallRes) (codes : List Nat)
    (max_retries : Nat) (f : ℚ) :
    ∀ (fuel retries : Nat) (d : ℚ) (c : Nat) (s : List ℚ),
    ∃ k, (retryGo func codes max_retries f fuel retries d c s).sleeps
      = s ++ (List.range k).map (fun i => d * f ^ i) := by
  intro fuel
  induction fuel with
  | zero =>
    intro retries d c s
    exact ⟨0, by simp [retryGo]⟩
  | succ fuel ih =>
    intro retries d c s
    rw [retryGo]
    cases hf : func retries with
    | ret result =>
      cases result with
      | pynone => exact ⟨0, by simp⟩
      | other t => exact ⟨0, by simp⟩
      | resp code =>
        by_cases h200 : code = 200
        · exact ⟨0, by simp [h200]⟩
        · by_cases hre : code ∈ codes
          · simp only [h200, if_false, hre, if_true]
            by_cases hmax : retries = max_retries
            · exact ⟨0, by simp [hmax]⟩
            · simp only [hmax, if_false]
              obtain ⟨k, hk⟩ := ih (retries + 1) (d * f) (c + 1) (s ++ [d])
              exact ⟨k + 1, by
                rw [hk, range_map_geom_succ, List.append_assoc,
                  List.singleton_append]⟩
          · exact ⟨0, by simp [h200, hre]⟩
    | raise =>
      by_cases hmax : retries = max_retries
      · exact ⟨0, by simp [hmax]⟩
      · simp only [hmax, if_false]
        obtain ⟨k, hk⟩ := ih (retries + 1) (d * f) (c + 1) (s ++ [d])
        exact ⟨k + 1, by
          rw [hk, range_map_geom_succ, List.append_assoc,
            List.singleton_append]⟩

/-- The operation of C4's scenario: a retryable status on the first two
calls (500, then 503), success (200) on the third. -/
def scenarioFunc : Nat → CallRes := fun n =>
  if n = 0 then CallRes.ret (PyVal.resp 500)
  else if n = 1 then CallRes.ret (PyVal.resp 503)
  else CallRes.ret (PyVal.resp 200)

/-- C4: in any run of the wrapper, the first sleep equals `initial_delay`
and each subsequent sleep is the previous one times `backoff_factor`; in the
scenario with two retryable statuses then success, the wrapper returns the
successful response after 3 calls, and the sleep before the 3rd call is
`≥ initial_delay * backoff_factor`. -/
theorem C4_exponential_backoff (func : Nat → CallRes) (codes : List Nat)
    (max_retries : Nat) (initial_delay backoff_factor : ℚ) :
    (∀ h : 0 < (retry_request func max_retries initial_delay backoff_factor
        codes).sleeps.length,
      (retry_request func max_retries initial_delay backoff_factor
        codes).sleeps.get ⟨0, h⟩ = initial_delay) ∧
    (∀ i, ∀ h : i + 1 < (retry_request func max_retries initial_delay
        backoff_factor codes).sleeps.length,
      (retry_request func max_retries initial_delay backoff_factor
        codes).sleeps.get ⟨i + 1, h⟩
        = (retry_request func max_retries initial_delay backoff_factor
            codes).sleeps.get ⟨i, Nat.lt_of_succ_lt h⟩ * backoff_factor) ∧
    retry_request scenarioFunc 3 1 2 defaultRetryable
      = ⟨PyVal.resp 200, 3, [1, 2]⟩ ∧
    1 * 2 ≤ (retry_request scenarioFunc 3 1 2 defaultRetryable).sleeps.getD
      1 0 := by
  obtain ⟨k, hk⟩ := retryGo_sleeps func codes max_retries backoff_factor
    (max_retries + 1) 0 initial_delay 0 []
  have hs : (retry_request func max_retries initial_delay backoff_factor
      codes).sleeps
      = (List.range k).map (fun i => initial_delay * backoff_factor ^ i) := by
    rw [retry_request, hk, List.nil_append]
  refine ⟨?_, ?_,
    by simp [retry_request, retryGo, scenarioFunc, defaultRetryable],
    by simp [retry_request, retryGo, scenarioFunc, defaultRetryable]⟩
  · intro h
    rw [List.get_eq_getElem]
    have hlen : 0 < k := by
      have := h
      rw [hs, List.length_map, List.length_range] at this
      exact this
    simp only [hs]
    rw [List.getElem_map, List.getElem_range, pow_zero, mul_one]
  · intro i h
    rw [List.get_eq_getElem, List.get_eq_getElem]
    have hlen : i + 1 < k := by
      have := h
      rw [hs, List.length_map, List.length_range] at this
      exact this
    simp only [hs]
    rw [List.getElem_map, List.getElem_range, List.getElem_map,
      List.getElem_range, pow_succ]
    ring

/-- Witness for C4 at the two-retries-then-success scenario: the second
sleep is the first times the backoff factor. -/
theorem C4_exponential_backoff_witness :
    (retry_request scenarioFunc 3 1 2 defaultRetryable).sleeps.get
        ⟨1, by decide⟩
      = (retry_request scenarioFunc 3 1 2 defaultRetryable).sleeps.get
        ⟨0, by decide⟩ * 2 :=
  (C4_exponential_backoff scenarioFunc defaultRetryable 3 1 2).2.1 0
    (by decide)

/-- Witness for C10: an operation returning a bare value (no `status_code`)
is passed through on the first call. -/
theorem C10_no_status_code_passthrough_witness :
    retry_request (fun _ => CallRes.ret (PyVal.other 7)) 3 1 2
      defaultRetryable = ⟨PyVal.other 7, 1, []⟩ ∧
    (retry_request (fun _ => CallRes.ret PyVal.pynone) 3 1 2
      defaultRetryable).value =
    (retry_request (fun _ => CallRes.raise) 3 1 2 defaultRetryable).value :=
  C10_no_status_code_passthrough (fun _ => CallRes.ret (PyVal.other 7)) 3 1 2
    defaultRetryable (PyVal.other 7) rfl rfl

/-! ## The pagination driver (`fetch_all`, src/main.py lines 125-155)

The page fetcher `fetch_hh_vac` is modelled as an oracle from the page index
to the decoded response (`none` = the fetcher returned `None`: request
failure, non-200 status, or decode error).  `items = none` models the
`items` key being absent or `null` (both stop the loop exactly like `[]`,
via `'items' not in vacancies` resp. `if not current_vacancies`); `pages =
none` models the `pages` key being absent, defaulted to `0` by
`vacancies.get('pages', 0)`.  The driver is instrumented to also return the
list of page indices passed to the fetcher, in call order. -/

/-- A decoded page response: the `items` list and the `pages` total. -/
structure PageResponse where
  items : Option (List Vacancy)
  pages : Option Int
deriving DecidableEq, Repr

/-- The `while True` loop of `fetch_all` (src/main.py lines 130-153).
`fuel` stands for the hard page cap: the loop only recurses when
`¬(page ≥ 19)`, so starting from `page = 0` with `fuel = 20` the invariant
`page + fuel = 20` holds at every call and the `fuel = 0` case is never
reached (see the fuel-irrelevance theorem below).  Each iteration records
the page index it fetches, then follows the source's breaks:
no/unusable response → stop; empty item list → stop; otherwise extend the
accumulator with the filtered items; stop when `page ≥ pages - 1` or
`page ≥ 19`; else `page += 1`, sleep 0.2, continue. -/
def fetchAllGo (fetch : Nat → Option PageResponse) (min_salary : Int) :
    Nat → Nat → List Vacancy → List Nat → List Vacancy × List Nat
  | 0, _, acc, visited => (acc, visited)
  | fuel + 1, page, acc, visited =>
    match fetch page with
    | none => (acc, visited ++ [page])
    | some resp =>
      match resp.items with
      | none => (acc, visited ++ [page])
      | some items =>
        if items = [] then (acc, visited ++ [page])
        else
          if (page : Int) ≥ resp.pages.getD 0 - 1 ∨ page ≥ 19 then
            (acc ++ filter_by_salary items min_salary, visited ++ [page])
          else
            fetchAllGo fetch min_salary fuel (page + 1)
              (acc ++ filter_by_salary items min_salary) (visited ++ [page])

/-- `fetch_all` (src/main.py lines 125-155): `page = 0`, `all_vacancies =
[]`, then the loop; first component is the returned accumulator, second the
instrumented trace of fetched page indices. -/
def fetch_all (fetch : Nat → Option PageResponse) (min_salary : Int) :
    List Vacancy × List Nat :=
  fetchAllGo fetch min_salary 20 0 [] []

/-- The trace of fetched pages is a contiguous run starting at the entry
page, of length at least 1 (when there is fuel) and at most the fuel. -/
theorem fetchAllGo_visited (fetch : Nat → Option PageResponse) (m : Int) :
    ∀ (fuel page : Nat) (acc : List Vacancy) (visited : List Nat),
    ∃ j, j ≤ fuel ∧ (fuel ≠ 0 → 1 ≤ j) ∧
      (fetchAllGo fetch m fuel page acc visited).2
        = visited ++ List.range' page j := by
  intro fuel
  induction fuel with
  | zero =>
    intro page acc visited
    exact ⟨0, le_rfl, fun h => absurd rfl h, by simp [fetchAllGo]⟩
  | succ fuel ih =>
    intro page acc visited
    rw [fetchAllGo]
    cases hf : fetch page with
    | none =>
      exact ⟨1, by omega, fun _ => le_rfl, by simp [List.range'_succ]⟩
    | some resp =>
      obtain ⟨itemsOpt, pagesOpt⟩ := resp
      cases itemsOpt with
      | none =>
        exact ⟨1, by omega, fun _ => le_rfl, by simp [List.range'_succ]⟩
      | some items =>
        dsimp only
        by_cases hemp : items = []
        · rw [if_pos hemp]
          exact ⟨1, by omega, fun _ => le_rfl, by simp [List.range'_succ]⟩
        · rw [if_neg hemp]
          by_cases hstop : (page : Int) ≥ pagesOpt.getD 0 - 1 ∨ page ≥ 19
          · rw [if_pos hstop]
            exact ⟨1, by omega, fun _ => le_rfl, by simp [List.range'_succ]⟩
          · rw [if_neg hstop]
            obtain ⟨j, hjle, -, hj⟩ := ih (page + 1)
              (acc ++ filter_by_salary items m) (visited ++ [page])
            refine ⟨j + 1, by omega, fun _ => by omega, ?_⟩
            rw [hj, List.range'_succ, List.append_assoc,
              List.singleton_append]

/-- Any fuel at least `20 - page` gives the same run: the loop stops on its
own before the fuel does, so the fuel is irrelevant past the hard cap. -/
theorem fetchAllGo_fuel_irrel (fetch : Nat → Option PageResponse) (m : Int) :
    ∀ (f₁ f₂ page : Nat) (acc : List Vacancy) (visited : List Nat),
    page ≤ 19 → 20 ≤ page + f₁ → 20 ≤ page + f₂ →
    fetchAllGo fetch m f₁ page acc visited
      = fetchAllGo fetch m f₂ page acc visited := by
  intro f₁
  induction f₁ with
  | zero => intro f₂ page acc visited h19 h1 h2; omega
  | succ f₁ ih =>
    intro f₂ page acc visited h19 h1 h2
    cases f₂ with
    | zero => omega
    | succ f₂ =>
      rw [fetchAllGo, fetchAllGo]
      cases hf : fetch page with
      | none => rfl
      | some resp =>
        obtain ⟨itemsOpt, pagesOpt⟩ := resp
        cases itemsOpt with
        | none => rfl
        | some items =>
          dsimp only
          by_cases hemp : items = []
          · rw [if_pos hemp, if_pos hemp]
          · rw [if_neg hemp, if_neg hemp]
            by_cases hstop : (page : Int) ≥ pagesOpt.getD 0 - 1 ∨ page ≥ 19
            · rw [if_pos hstop, if_pos hstop]
            · rw [if_neg hstop, if_neg hstop]
              have hlt : page < 19 := by
                rcases not_or.mp hstop with ⟨-, h'⟩
                omega
              exact ih f₂ (page + 1)
                (acc ++ filter_by_salary items m) (visited ++ [page])
                (by omega) (by omega) (by omega)

/-- C6: in every run of `fetch_all` the page indices passed to the fetcher
start at 0, are strictly increasing and contiguous (each one more than the
previous), never exceed 19, and never repeat. -/
theorem C6_page_indices (fetch : Nat → Option PageResponse) (m : Int) :
    (fetch_all fetch m).2.head? = some 0 ∧
    List.Chain' (fun a b => b = a + 1) (fetch_all fetch m).2 ∧
    (∀ p ∈ (fetch_all fetch m).2, p ≤ 19) ∧
    (fetch_all fetch m).2.Nodup := by
  obtain ⟨j, hjle, hjpos, hj⟩ := fetchAllGo_visited fetch m 20 0 [] []
  have hpos : 1 ≤ j := hjpos (by omega)
  have htr : (fetch_all fetch m).2 = List.range j := by
    rw [fetch_all, hj, List.nil_append, ← List.range_eq_range']
  obtain ⟨j', rfl⟩ : ∃ j', j = j' + 1 := ⟨j - 1, by omega⟩
  refine ⟨?_, ?_, ?_, ?_⟩
  · rw [htr, List.range_succ_eq_map]
    rfl
  · rw [htr]
    exact (List.chain'_range_succ _ j').mpr fun n _ => rfl
  · intro p hp
    rw [htr, List.mem_range] at hp
    omega
  · rw [htr]
    exact List.nodup_range _

/-- Witness for C6: with a fetcher that fails at once, the single fetched
index 0 is within the cap. -/
theorem C6_page_indices_witness :
    0 ∈ (fetch_all (fun _ => none) 0).2 ∧ (0 : Nat) ≤ 19 :=
  ⟨by decide, (C6_page_indices (fun _ => none) 0).2.2.1 0 (by decide)⟩

/-- Appending one page's filtered records keeps the accumulator invariant:
every element still passes the per-record salary check. -/
theorem acc_extend_filtered (m : Int) (acc items : List Vacancy)
    (hacc : ∀ v ∈ acc, keepVacancy m v = true) :
    ∀ v ∈ acc ++ filter_by_salary items m, keepVacancy m v = true := by
  intro v hv
  rcases List.mem_append.mp hv with h | h
  · exact hacc v h
  · rw [filter_by_salary_eq_filter] at h
    exact (List.mem_filter.mp h).2

/-- C7: from any state whose accumulator only holds records passing the
salary filter, every later state of the pagination loop — in particular the
returned result of `fetch_all` — still only holds such records: no record
that `filter_by_salary` would drop ever enters the accumulator. -/
theorem C7_accumulator_filtered (fetch : Nat → Option PageResponse)
    (m : Int) :
    (∀ (fuel page : Nat) (acc : List Vacancy) (visited : List Nat),
      (∀ v ∈ acc, keepVacancy m v = true) →
      ∀ v ∈ (fetchAllGo fetch m fuel page acc visited).1,
        keepVacancy m v = true) ∧
    (∀ v ∈ (fetch_all fetch m).1, keepVacancy m v = true) := by
  have main : ∀ (fuel page : Nat) (acc : List Vacancy) (visited : List Nat),
      (∀ v ∈ acc, keepVacancy m v = true) →
      ∀ v ∈ (fetchAllGo fetch m fuel page acc visited).1,
        keepVacancy m v = true := by
    intro fuel
    induction fuel with
    | zero =>
      intro page acc visited hacc v hv
      exact hacc v hv
    | succ fuel ih =>
      intro page acc visited hacc v hv
      rw [fetchAllGo] at hv
      rcases hfp : fetch page with - | ⟨itemsOpt, pagesOpt⟩
      · rw [hfp] at hv
        exact hacc v hv
      · rw [hfp] at hv
        cases itemsOpt with
        | none => exact hacc v hv
        | some items =>
          dsimp only at hv
          by_cases hemp : items = []
          · rw [if_pos hemp] at hv
            exact hacc v hv
          · rw [if_neg hemp] at hv
            by_cases hstop : (page : Int) ≥ pagesOpt.getD 0 - 1 ∨ page ≥ 19
            · rw [if_pos hstop] at hv
              exact acc_extend_filtered m acc items hacc v hv
            · rw [if_neg hstop] at hv
              exact ih (page + 1) (acc ++ filter_by_salary items m)
                (visited ++ [page])
                (acc_extend_filtered m acc items hacc) v hv
  refine ⟨main, fun v hv => main 20 0 [] [] (fun v' hv' => ?_) v hv⟩
  exact absurd hv' (List.not_mem_nil v')

/-- Witness for C7: a one-page run keeping one of two records; the record in
the result passes the salary check. -/
theorem C7_accumulator_filtered_witness :
    Vacancy.mk (some ⟨some 150, none⟩) 0 ∈
      (fetch_all (fun _ => some ⟨some [⟨some ⟨some 150, none⟩, 0⟩,
        ⟨some ⟨some 50, none⟩, 1⟩], some 1⟩) 100).1 ∧
    keepVacancy 100 ⟨some ⟨some 150, none⟩, 0⟩ = true :=
  ⟨by decide,
   (C7_accumulator_filtered (fun _ => some ⟨some [⟨some ⟨some 150, none⟩, 0⟩,
      ⟨some ⟨some 50, none⟩, 1⟩], some 1⟩) 100).2 _ (by decide)⟩

/-- C9: `fetch_all` terminates within the hard cap on every fetcher
behavior: giving the loop any extra fuel beyond the 20 admissible pages
changes nothing (the loop always stops by itself first), and a run performs
at most 20 fetches. -/
theorem C9_terminates_within_cap (fetch : Nat → Option PageResponse)
    (m : Int) (extra : Nat) :
    fetchAllGo fetch m (20 + extra) 0 [] [] = fetch_all fetch m ∧
    (fetch_all fetch m).2.length ≤ 20 := by
  constructor
  · rw [fetch_all]
    exact fetchAllGo_fuel_irrel fetch m (20 + extra) 20 0 [] []
      (by omega) (by omega) (by omega)
  · obtain ⟨j, hjle, -, hj⟩ := fetchAllGo_visited fetch m 20 0 [] []
    rw [fetch_all, hj, List.nil_append, List.length_range']
    exact hjle

end HHParse
